import Mathlib

/-!
Verification of `spotify_songs_relink.py` (Spotify Song Relinker & Auditor).

The program is a single linear pipeline in `main()`:
fetch pages of a source (playlist or liked songs) → batch-resolve track
details → classify each resolved track (Re-linked / Unplayable / OK) →
search for substitutes for unplayable ones → write a two-sheet report →
(live run only) add the substitute and remove the original per record.

We embed the pipeline shallowly: the remote service is an abstract
environment (`Env` for reads, `FailEnv` for injected reconciliation
failures), and every remote call the program issues is recorded in a
trace of `RemoteCall` values, so that frame conditions (e.g. "dry run
issues no mutating call") become statements about the trace.
-/

namespace SpotifyRelink

/-- A track as it appears in a source item: `item.track` with its
`id` (possibly absent or empty), primary artist name (`artists[0].name`),
title (`name`) and album name (`album.name`). -/
structure SourceTrack where
  id : Option String
  artist : String
  name : String
  album : String
  deriving Repr, DecidableEq

/-- A raw source item. `none` covers both a null item and an item whose
`track` field is null (the code skips both identically). -/
def Item := Option SourceTrack
deriving instance Repr, DecidableEq for Item

/-- A fully resolved track from the batch `sp.tracks` call:
`id`, optional redirect metadata (`linked_from.id`, present exactly when
the `linked_from` key is present and truthy), market-aware
playability, and album name. -/
structure ResolvedTrack where
  id : String
  linked_from : Option String
  is_playable : Bool
  album : String
  deriving Repr, DecidableEq

/-- A candidate from the `sp.search` response: `tracks.items[i]`. -/
structure Candidate where
  id : String
  name : String
  album : String
  is_playable : Bool
  deriving Repr, DecidableEq

/-- One audit record (`log_entry` in the code). -/
structure LogEntry where
  artist : String
  title : String
  old_album : String
  old_id : String
  new_album : String
  new_id : String
  reason : String
  deriving Repr, DecidableEq

/-- Every remote API call the modelled part of the program can issue. -/
inductive RemoteCall where
  | fetchPage (playlist : Bool) (offset limit : Nat)
  | tracksResolve (ids : List String)
  | searchTracks (query : String) (limit : Nat)
  | playlistAdd (id : String)
  | playlistRemove (id : String)
  | savedAdd (id : String)
  | savedDelete (id : String)
  deriving Repr, DecidableEq

/-- The four calls that mutate the user library; everything else is a read. -/
def RemoteCall.isMutating : RemoteCall → Bool
  | .playlistAdd _ => true
  | .playlistRemove _ => true
  | .savedAdd _ => true
  | .savedDelete _ => true
  | _ => false

/-- Read-only remote environment: the source full item sequence (a page at
`offset` is `(allItems.drop offset).take limit`, as the remote serves
offset-based pages), the batch resolver `sp.tracks`, and the catalog search. -/
structure Env where
  allItems : List Item
  resolve : List String → List (Option ResolvedTrack)
  search : String → List Candidate

/-- Run configuration distilled from the parsed CLI flags:
`DRY_RUN`, whether a `PLAYLIST_ID` is set (else liked songs), and
`TEST_MODE_ARTIST`. -/
structure Config where
  dryRun : Bool
  isPlaylist : Bool
  testArtist : Option String

/-- The page-size limit the code requests: 100 for playlist items, 50 for
liked songs. -/
def Config.pageLimit (cfg : Config) : Nat :=
  if cfg.isPlaylist then 100 else 50

/-- The guard of the per-page dict comprehension:
`if item and item.get(track) and item[track].get(id)` — the item and its
track must be present and the id must be a truthy (non-empty) string.
Returns the key/value pair inserted into `original_track_map`. -/
def usableTrack : Item → Option (String × SourceTrack)
  | none => none
  | some t =>
      match t.id with
      | none => none
      | some s => if s = "" then none else some (s, t)

/-- Python-dict insertion: an existing key keeps its position and gets the
new value; a new key is appended (insertion order preserved). -/
def insertDict (d : List (String × SourceTrack)) (k : String) (v : SourceTrack) :
    List (String × SourceTrack) :=
  if d.any (fun p => p.1 == k) then
    d.map (fun p => if p.1 == k then (k, v) else p)
  else
    d ++ [(k, v)]

/-- `original_track_map`: the per-page insertion-ordered map from usable track
id to the original item track. -/
def buildMap (items : List Item) : List (String × SourceTrack) :=
  items.foldl
    (fun d it =>
      match usableTrack it with
      | none => d
      | some (k, v) => insertDict d k v)
    []

/-- `original_track_map.get(id_in_library)`. -/
def dictLookup (d : List (String × SourceTrack)) (k : String) : Option SourceTrack :=
  (d.find? (fun p => p.1 == k)).map Prod.snd

/-- Python `str.lower` as used on titles and artist names, modelled as
character-wise lowercasing. -/
def lowerStr (s : String) : String := ⟨s.data.map Char.toLower⟩

/-- The acceptance test of the substitute-search loop:
`potential_track.is_playable and potential_track.name.lower() == log_entry.title.lower()`. -/
def acceptCandidate (title : String) (c : Candidate) : Bool :=
  c.is_playable && (lowerStr c.name == lowerStr title)

/-- The substitute-search loop over `search_results.tracks.items`:
take the first candidate that is playable and whose name equals the original
title case-insensitively, stopping at the first hit (`break`). -/
def findSubstitute (title : String) : List Candidate → Option Candidate
  | [] => none
  | c :: rest =>
      if acceptCandidate title c then some c
      else findSubstitute title rest

/-- The fresh audit record before classification fills in its reason and
substitute fields: artist/title/album from the original item, `old_id` set to
`id_in_library`, the rest empty. -/
def mkBase (orig : SourceTrack) (idInLibrary : String) : LogEntry :=
  { artist := orig.artist, title := orig.name, old_album := orig.album,
    old_id := idInLibrary, new_album := "", new_id := "", reason := "" }

/-- The search query string `f"{title} artist:{artist}"`. -/
def mkQuery (title artist : String) : String :=
  title ++ " artist:" ++ artist

/-- Classification of one resolved track (body of the
`for resolved_track in full_tracks_details.tracks` loop, the null-track
skip excluded): computes `id_in_library`, looks it up in the page map
(skipping if absent), then classifies Re-linked / Unplayable / OK and, for
Unplayable, runs the substitute search. Returns the produced audit record (if
any) together with the remote calls issued. -/
def classifyTrack (lookup : String → Option SourceTrack)
    (search : String → List Candidate) (rt : ResolvedTrack) :
    Option LogEntry × List RemoteCall :=
  let is_relinked := rt.linked_from.isSome
  let is_unplayable := !rt.is_playable
  let id_in_library :=
    match rt.linked_from with
    | some lfid => lfid
    | none => rt.id
  match lookup id_in_library with
  | none => (none, [])
  | some orig =>
      let base := mkBase orig id_in_library
      if is_relinked then
        (some { base with reason := "Re-linked", new_id := rt.id, new_album := rt.album }, [])
      else if is_unplayable then
        let query := mkQuery base.title base.artist
        let cands := search query
        match findSubstitute base.title cands with
        | some c =>
            (some { base with reason := "Unplayable", new_id := c.id, new_album := c.album },
             [RemoteCall.searchTracks query 5])
        | none =>
            (some { base with reason := "Unplayable" }, [RemoteCall.searchTracks query 5])
      else
        (some { base with reason := "OK" }, [])

/-- Process the resolved tracks of one page in order, skipping null
placeholders (`if not resolved_track: continue`), collecting audit records
and issued calls. -/
def processResolved (lookup : String → Option SourceTrack)
    (search : String → List Candidate) :
    List (Option ResolvedTrack) → List LogEntry × List RemoteCall
  | [] => ([], [])
  | none :: rest => processResolved lookup search rest
  | some rt :: rest =>
      let step := classifyTrack lookup search rt
      let tail := processResolved lookup search rest
      (step.1.toList ++ tail.1, step.2 ++ tail.2)

/-- One page processing after the empty-page check: build the id map; if no
usable ids, do nothing (`if not track_ids: ... continue`); otherwise issue one
batch resolve for all ids and classify each resolved track. -/
def pageStep (env : Env) (items : List Item) : List LogEntry × List RemoteCall :=
  let m := buildMap items
  let track_ids := m.map Prod.fst
  if track_ids = [] then ([], [])
  else
    let resolved := env.resolve track_ids
    let body := processResolved (dictLookup m) env.search resolved
    (body.1, RemoteCall.tracksResolve track_ids :: body.2)

/-- The main audit loop (`while True` of Step 5): fetch the page at `offset`;
stop when it is empty; otherwise process it and continue at
`offset + len(items)`. Returns all audit records in encounter order and the
full trace of remote calls. -/
def auditLoop (env : Env) (cfg : Config) (limit offset : Nat) :
    List LogEntry × List RemoteCall :=
  if h : (env.allItems.drop offset).take limit = [] then
    ([], [RemoteCall.fetchPage cfg.isPlaylist offset limit])
  else
    let page := (env.allItems.drop offset).take limit
    let s := pageStep env page
    let rest := auditLoop env cfg limit (offset + page.length)
    (s.1 ++ rest.1,
     RemoteCall.fetchPage cfg.isPlaylist offset limit :: (s.2 ++ rest.2))
termination_by env.allItems.length - offset
decreasing_by
  have h1 : offset < env.allItems.length := by
    by_contra hc
    push_neg at hc
    exact h (by simp [List.drop_eq_nil_of_le hc])
  have h2 : 0 < ((env.allItems.drop offset).take limit).length :=
    List.length_pos.mpr h
  omega

/-- The whole audit phase (Step 5), starting at offset 0 with the mode page
limit. -/
def runAudit (env : Env) (cfg : Config) : List LogEntry × List RemoteCall :=
  auditLoop env cfg cfg.pageLimit 0

/-! ## Reconciler (Step 7) -/

/-- Injected failure behaviour of the mutating calls: `addErr newId`
(`removeErr oldId`) is `some e` when the corresponding remote call raises an
exception rendered as `e`, `none` when it succeeds. -/
structure FailEnv where
  addErr : String → Option String
  removeErr : String → Option String

/-- The add call for the current mode: `sp.playlist_add_items` for a
playlist, `sp.current_user_saved_tracks_add` for liked songs. -/
def mkAdd (isPlaylist : Bool) (id : String) : RemoteCall :=
  if isPlaylist then RemoteCall.playlistAdd id else RemoteCall.savedAdd id

/-- The remove call for the current mode:
`sp.playlist_remove_all_occurrences_of_items` or
`sp.current_user_saved_tracks_delete`. -/
def mkRemove (isPlaylist : Bool) (id : String) : RemoteCall :=
  if isPlaylist then RemoteCall.playlistRemove id else RemoteCall.savedDelete id

/-- The console message of the per-record `except` handler:
the print of <An error occurred while replacing track OLD_ID: E>. -/
def errMsg (oldId err : String) : String :=
  "An error occurred while replacing track " ++ oldId ++ ": " ++ err

/-- One record add/remove pair inside the `try` block: the add is issued
first; if it raises, the remove is never issued and the error is logged; if
the add succeeds the remove is issued, and a failure there is logged the same
way. Returns the issued calls in order and the logged error messages. -/
def reconcileRecord (isPlaylist : Bool) (fe : FailEnv) (r : LogEntry) :
    List RemoteCall × List String :=
  match fe.addErr r.new_id with
  | some e => ([mkAdd isPlaylist r.new_id], [errMsg r.old_id e])
  | none =>
      match fe.removeErr r.old_id with
      | some e =>
          ([mkAdd isPlaylist r.new_id, mkRemove isPlaylist r.old_id],
           [errMsg r.old_id e])
      | none =>
          ([mkAdd isPlaylist r.new_id, mkRemove isPlaylist r.old_id], [])

/-- The in-loop artist filter:
`if TEST_MODE_ARTIST and pair.artist.lower() != TEST_MODE_ARTIST.lower(): continue`.
`TEST_MODE_ARTIST` is truthy only when it is a set, non-empty string. -/
def skipByFilter (ta : Option String) (artist : String) : Bool :=
  match ta with
  | none => false
  | some f => !(f == "") && !(lowerStr artist == lowerStr f)

/-- The replacement loop over `tracks_to_process`, in order: skip records the
artist filter excludes, otherwise perform the record add/remove pair. -/
def reconcileList (isPlaylist : Bool) (ta : Option String) (fe : FailEnv) :
    List LogEntry → List RemoteCall × List String
  | [] => ([], [])
  | r :: rest =>
      let tail := reconcileList isPlaylist ta fe rest
      if skipByFilter ta r.artist then tail
      else
        let step := reconcileRecord isPlaylist fe r
        (step.1 ++ tail.1, step.2 ++ tail.2)

/-- The whole reconciliation phase:
`tracks_to_process = [t for t in tracks_to_audit_log if t.new_id]`
(records with a truthy, i.e. non-empty, substitute id) followed by the
replacement loop. -/
def reconcile (isPlaylist : Bool) (ta : Option String) (fe : FailEnv)
    (log : List LogEntry) : List RemoteCall × List String :=
  reconcileList isPlaylist ta fe (log.filter (fun t => !(t.new_id == "")))

/-- Steps 5+7 end to end: the audit's remote calls followed by the
reconciliation calls, the latter only when not a dry run
(`if not DRY_RUN:`). -/
def runMain (env : Env) (cfg : Config) (fe : FailEnv) : List RemoteCall :=
  let audit := runAudit env cfg
  let reconCalls :=
    if cfg.dryRun then []
    else (reconcile cfg.isPlaylist cfg.testArtist fe audit.1).1
  audit.2 ++ reconCalls

/-- Effect of a remote call on the source collection, viewed as the list of
track ids it currently holds: the add calls append the id, the remove calls
delete every occurrence (Spotify remove-all-occurrences / unlike
semantics), reads change nothing. -/
def applyCall (st : List String) : RemoteCall → List String
  | RemoteCall.playlistAdd i => st ++ [i]
  | RemoteCall.savedAdd i => st ++ [i]
  | RemoteCall.playlistRemove i => st.filter (fun x => !(x == i))
  | RemoteCall.savedDelete i => st.filter (fun x => !(x == i))
  | _ => st

/-! ## Reporter (Step 6) -/

/-- `unplayable_count` / `relinked_count` / `clean_count` pattern:
`len([t for t in tracks_to_audit_log if t.reason == r])`. -/
def countReason (log : List LogEntry) (r : String) : Nat :=
  (log.filter (fun t => t.reason == r)).length

/-- `replacements_found = len([t for t in tracks_to_audit_log if t.new_id])`. -/
def replacementsFound (log : List LogEntry) : Nat :=
  (log.filter (fun t => !(t.new_id == ""))).length

/-- A worksheet: title plus rows of stringified cells. -/
structure Sheet where
  title : String
  rows : List (List String)
  deriving Repr, DecidableEq

/-- `ws.append(row)`. -/
def wsAppend (ws : Sheet) (row : List String) : Sheet :=
  { ws with rows := ws.rows ++ [row] }

/-- The run metadata written to the summary sheet. -/
structure ReportMeta where
  timestamp : String
  userName : String
  sourceName : String
  dryRun : Bool
  market : String
  testArtist : Option String

/-- The "Run Summary" sheet, built by the sequence of `ws_summary.append`
calls: title row, run parameters, a blank row, then the statistics block. -/
def summarySheet (m : ReportMeta) (log : List LogEntry) : Sheet :=
  let run_info : List (List String) :=
    [["Timestamp", m.timestamp],
     ["Authenticated User", m.userName],
     ["Source Audited", m.sourceName],
     ["Run Mode", if m.dryRun then "Dry Run (No Changes Made)" else "Live Run (Changes Made)"],
     ["Market", m.market],
     ["Test Mode Artist",
       match m.testArtist with
       | some a => if a = "" then "N/A (Full Run)" else a
       | none => "N/A (Full Run)"]]
  let scan_stats : List (List String) :=
    [["Category", "Count"],
     ["Total Tracks Audited", toString log.length],
     ["Clean Tracks", toString (countReason log "OK")],
     ["Unplayable Tracks", toString (countReason log "Unplayable")],
     ["Re-linked Tracks", toString (countReason log "Re-linked")],
     ["Replacements Found", toString (replacementsFound log)]]
  let ws0 : Sheet := { title := "Run Summary", rows := [["Run Parameters"]] }
  let ws1 := run_info.foldl wsAppend ws0
  let ws2 := wsAppend ws1 []
  let ws3 := wsAppend ws2 ["Scan Statistics"]
  scan_stats.foldl wsAppend ws3

/-- The audit sheet header row. -/
def auditHeaders : List String :=
  ["Reason", "Artist", "Title", "Old Album Name", "Old Track Id",
   "New Album Name", "New Track Id"]

/-- The data row appended for one audit record. -/
def auditRow (t : LogEntry) : List String :=
  [t.reason, t.artist, t.title, t.old_album, t.old_id, t.new_album, t.new_id]

/-- The "Audit Report" sheet: the header row followed by one appended row per
audit record, in the loop order. -/
def auditSheet (log : List LogEntry) : Sheet :=
  let ws0 : Sheet := { title := "Audit Report", rows := [auditHeaders] }
  log.foldl (fun ws t => wsAppend ws (auditRow t)) ws0

/-- The workbook: the active sheet is renamed "Run Summary" and filled, then
"Audit Report" is created — exactly two sheets. -/
def buildWorkbook (m : ReportMeta) (log : List LogEntry) : List Sheet :=
  [summarySheet m log, auditSheet log]

/-- Step 6's report output: `if tracks_to_audit_log:` guards the whole
workbook construction and save, so no file is written for an empty log. -/
def buildReport (m : ReportMeta) (log : List LogEntry) : Option (List Sheet) :=
  if log = [] then none else some (buildWorkbook m log)

/-! ## Helper lemmas -/

/-- The substitute-search loop returns the first acceptable candidate in the
order the search response lists them. -/
theorem findSubstitute_eq_find (title : String) (l : List Candidate) :
    findSubstitute title l = l.find? (acceptCandidate title) := by
  induction l with
  | nil => rfl
  | cons c rest ih =>
      by_cases h : acceptCandidate title c
      · simp [findSubstitute, List.find?_cons, h]
      · simp [findSubstitute, List.find?_cons, h, ih]

/-- Classifying a single track issues at most a catalog search — never a
mutating call. -/
theorem classifyTrack_calls_read_only (lookup : String → Option SourceTrack)
    (search : String → List Candidate) (rt : ResolvedTrack) :
    ∀ c ∈ (classifyTrack lookup search rt).2, c.isMutating = false := by
  intro c hc
  simp only [classifyTrack] at hc
  split at hc
  · simp at hc
  · split at hc
    · simp at hc
    · split at hc
      · split at hc <;> simp at hc <;> simp [hc, RemoteCall.isMutating]
      · simp at hc

/-- Processing a page resolved tracks issues no mutating call. -/
theorem processResolved_calls_read_only (lookup : String → Option SourceTrack)
    (search : String → List Candidate) :
    ∀ l, ∀ c ∈ (processResolved lookup search l).2, c.isMutating = false := by
  intro l
  induction l with
  | nil => intro c hc; simp [processResolved] at hc
  | cons hd rest ih =>
      cases hd with
      | none =>
          intro c hc
          simp only [processResolved] at hc
          exact ih c hc
      | some rt =>
          intro c hc
          simp only [processResolved, List.mem_append] at hc
          rcases hc with hc | hc
          · exact classifyTrack_calls_read_only lookup search rt c hc
          · exact ih c hc

/-- A whole page step (batch resolve plus classification) issues no mutating
call. -/
theorem pageStep_calls_read_only (env : Env) (items : List Item) :
    ∀ c ∈ (pageStep env items).2, c.isMutating = false := by
  intro c hc
  simp only [pageStep] at hc
  split at hc
  · simp at hc
  · simp only [List.mem_cons] at hc
    rcases hc with rfl | hc
    · rfl
    · exact processResolved_calls_read_only _ _ _ c hc

/-- Bounded-depth version of `auditLoop_calls_read_only`, by induction on an
upper bound of the number of remaining items. -/
theorem auditLoop_calls_read_only_aux (env : Env) (cfg : Config) (limit : Nat) :
    ∀ n offset, env.allItems.length - offset ≤ n →
      ∀ c ∈ (auditLoop env cfg limit offset).2, c.isMutating = false := by
  intro n
  induction n with
  | zero =>
      intro offset hle c hc
      rw [auditLoop] at hc
      have hnil : (env.allItems.drop offset).take limit = [] := by
        have hlen : env.allItems.length ≤ offset := by omega
        simp [List.drop_eq_nil_of_le hlen]
      rw [dif_pos hnil] at hc
      simp at hc
      simp [hc, RemoteCall.isMutating]
  | succ n ih =>
      intro offset hle c hc
      rw [auditLoop] at hc
      by_cases hnil : (env.allItems.drop offset).take limit = []
      · rw [dif_pos hnil] at hc
        simp at hc
        simp [hc, RemoteCall.isMutating]
      · rw [dif_neg hnil] at hc
        simp only [List.mem_cons, List.mem_append] at hc
        rcases hc with rfl | hc | hc
        · rfl
        · exact pageStep_calls_read_only env _ c hc
        · refine ih (offset + ((env.allItems.drop offset).take limit).length) ?_ c hc
          have h1 : offset < env.allItems.length := by
            by_contra hcon
            push_neg at hcon
            exact hnil (by simp [List.drop_eq_nil_of_le hcon])
          have h2 : 0 < ((env.allItems.drop offset).take limit).length :=
            List.length_pos.mpr hnil
          omega

/-- The audit loop whole remote-call trace is read-only. -/
theorem auditLoop_calls_read_only (env : Env) (cfg : Config) (limit offset : Nat) :
    ∀ c ∈ (auditLoop env cfg limit offset).2, c.isMutating = false :=
  auditLoop_calls_read_only_aux env cfg limit (env.allItems.length - offset) offset
    (Nat.le_refl _)

/-- The first call the audit loop issues at a given offset is the page fetch
at that offset. -/
theorem auditLoop_fetch_mem (env : Env) (cfg : Config) (limit offset : Nat) :
    RemoteCall.fetchPage cfg.isPlaylist offset limit ∈ (auditLoop env cfg limit offset).2 := by
  rw [auditLoop]
  split
  · simp
  · simp

/-- The replacement loop calls come exactly from the records the artist
filter lets through, in order. -/
theorem reconcileList_calls_eq (isPlaylist : Bool) (ta : Option String)
    (fe : FailEnv) (l : List LogEntry) :
    (reconcileList isPlaylist ta fe l).1 =
      ((l.filter (fun r => !(skipByFilter ta r.artist))).map
        (fun r => (reconcileRecord isPlaylist fe r).1)).flatten := by
  induction l with
  | nil => rfl
  | cons r rest ih =>
      by_cases h : skipByFilter ta r.artist
      · simp [reconcileList, h, ih, List.filter_cons]
      · simp [reconcileList, h, ih, List.filter_cons]

/-- Appending one row per record to a sheet appends exactly those rows. -/
theorem foldl_wsAppend_rows (log : List LogEntry) :
    ∀ ws : Sheet,
      (log.foldl (fun ws t => wsAppend ws (auditRow t)) ws).rows =
        ws.rows ++ log.map auditRow := by
  induction log with
  | nil => intro ws; simp
  | cons t rest ih =>
      intro ws
      simp only [List.foldl_cons, List.map_cons]
      rw [ih]
      simp [wsAppend]

/-- The audit sheet is the header row followed by one row per record in
order. -/
theorem auditSheet_rows (log : List LogEntry) :
    (auditSheet log).rows = auditHeaders :: log.map auditRow := by
  unfold auditSheet
  rw [foldl_wsAppend_rows]
  rfl

/-! ## Concrete fixtures used by the witnesses -/

/-- An empty remote source. -/
def envNil : Env := ⟨[], fun _ => [], fun _ => []⟩

/-- Dry run over liked songs, no artist filter. -/
def cfgDryLiked : Config := ⟨true, false, none⟩

/-- A failure environment in which every mutation succeeds. -/
def feOk : FailEnv := ⟨fun _ => none, fun _ => none⟩

/-- A failure environment in which every add raises `"boom"`. -/
def feAddBoom : FailEnv := ⟨fun _ => some "boom", fun _ => none⟩

/-- The original item track used by the classification witnesses. -/
def origW : SourceTrack := ⟨some "A", "ArtistX", "TitleX", "AlbumA"⟩

/-- A page map in which every id resolves to `origW`. -/
def lkW : String → Option SourceTrack := fun _ => some origW

/-- A search that returns no candidates. -/
def seW : String → List Candidate := fun _ => []

/-- A resolved track that is both redirected (`linked_from.id = "A"`) and
unplayable. -/
def rtBoth : ResolvedTrack := ⟨"B", some "A", false, "AlbumB"⟩

/-- A resolved track with `linked_from.id = "A"`, `id = "B"`,
`is_playable = true`. -/
def rtAB : ResolvedTrack := ⟨"B", some "A", true, "AlbumB"⟩

/-- An unplayable, non-redirected resolved track with id `"A"`. -/
def rtU : ResolvedTrack := ⟨"A", none, false, "AlbumA"⟩

/-- Search candidates: the first is title-matching but unplayable, the second
playable with the wrong title, the third and fourth playable with
case-insensitively matching titles. -/
def candList : List Candidate :=
  [⟨"c1", "titlex", "Alb1", false⟩, ⟨"c2", "Other", "Alb2", true⟩,
   ⟨"c3", "TITLEX", "Alb3", true⟩, ⟨"c4", "TitleX", "Alb4", true⟩]

/-- A search returning `candList` for every query. -/
def seW4 : String → List Candidate := fun _ => candList

/-- The audit record produced for `rtAB` (and `rtBoth`) under `lkW`. -/
def entryRelink : LogEntry :=
  ⟨"ArtistX", "TitleX", "AlbumA", "A", "AlbumB", "B", "Re-linked"⟩

/-- The audit record produced for `rtU` under `lkW`/`seW4`: the third
candidate is the first acceptable one. -/
def entryU : LogEntry :=
  ⟨"ArtistX", "TitleX", "AlbumA", "A", "Alb3", "c3", "Unplayable"⟩

/-! ## Claims -/

/-- C1: When dry-run mode is enabled, the program issues no mutating calls to
the remote service (no playlist add/remove and no saved-tracks add/delete),
for every run — any source contents, resolver, search behaviour and failure
behaviour — regardless of how many substitute tracks were found during the
audit. -/
theorem dry_run_no_mutating_calls (env : Env) (cfg : Config) (fe : FailEnv)
    (h : cfg.dryRun = true) :
    (runMain env cfg fe).all (fun c => !c.isMutating) = true := by
  simp only [runMain, h, if_true, List.append_nil]
  rw [List.all_eq_true]
  intro c hc
  have hm := auditLoop_calls_read_only env cfg cfg.pageLimit 0 c hc
  simp [hm]

/-- C1 witness: a concrete dry run issues only non-mutating calls. -/
theorem dry_run_no_mutating_calls_witness :
    (runMain envNil cfgDryLiked feOk).all (fun c => !c.isMutating) = true :=
  dry_run_no_mutating_calls envNil cfgDryLiked feOk rfl

/-- C2: For every resolved track that is classified, the reason follows the
precedence: `Re-linked` if redirect metadata is present (even when the track
is also unplayable), else `Unplayable` if not playable in the configured
market, else `OK`. -/
theorem classification_precedence (lookup : String → Option SourceTrack)
    (search : String → List Candidate) (rt : ResolvedTrack) (e : LogEntry)
    (h : (classifyTrack lookup search rt).1 = some e) :
    e.reason =
      if rt.linked_from.isSome then "Re-linked"
      else if rt.is_playable = false then "Unplayable"
      else "OK" := by
  simp only [classifyTrack] at h
  split at h
  · simp at h
  · split at h
    case isTrue hrel =>
      simp only [Option.some.injEq] at h
      subst h
      simp [hrel]
    case isFalse hrel =>
      split at h
      case isTrue hup =>
        split at h <;>
          · simp only [Option.some.injEq] at h
            subst h
            simp only [Bool.not_eq_true] at hrel
            simp only [Bool.not_eq_true'] at hup
            simp [hrel, hup]
      case isFalse hup =>
        simp only [Option.some.injEq] at h
        subst h
        simp only [Bool.not_eq_true] at hrel
        simp only [Bool.not_eq_true'] at hup
        simp [hrel, hup]

/-- C2 witness: a track that is both redirected and unplayable is classified
`Re-linked`. -/
theorem classification_precedence_witness : entryRelink.reason = "Re-linked" :=
  classification_precedence lkW seW rtBoth entryRelink rfl

/-- C3: Every audit record `old_id` is the identifier under which the track
is recorded in the source collection: the pre-redirect identifier when the
resolved track carries redirect metadata, the resolved track own identifier
otherwise — and it is a key of the page map; moreover a redirected track
`new_id` is the resolved identifier. -/
theorem old_id_is_library_id (lookup : String → Option SourceTrack)
    (search : String → List Candidate) (rt : ResolvedTrack) (e : LogEntry)
    (h : (classifyTrack lookup search rt).1 = some e) :
    (e.old_id = match rt.linked_from with | some lfid => lfid | none => rt.id)
    ∧ (lookup e.old_id).isSome = true
    ∧ (∀ lfid, rt.linked_from = some lfid → e.new_id = rt.id) := by
  simp only [classifyTrack] at h
  split at h
  case h_1 heq => simp at h
  case h_2 orig heq =>
    split at h
    case isTrue hrel =>
      simp only [Option.some.injEq] at h
      subst h
      refine ⟨rfl, by simp [mkBase, heq], fun lfid hl => rfl⟩
    case isFalse hrel =>
      split at h
      case isTrue hup =>
        split at h <;>
          · simp only [Option.some.injEq] at h
            subst h
            refine ⟨rfl, by simp [mkBase, heq], fun lfid hl => ?_⟩
            exact absurd (by simp [hl] : rt.linked_from.isSome = true)
              (by simpa using hrel)
      case isFalse hup =>
        simp only [Option.some.injEq] at h
        subst h
        refine ⟨rfl, by simp [mkBase, heq], fun lfid hl => ?_⟩
        exact absurd (by simp [hl] : rt.linked_from.isSome = true)
          (by simpa using hrel)

/-- C3 witness: a resolved track with `linked_from.id = "A"`, `id = "B"`
yields `old_id = "A"` and `new_id = "B"`. -/
theorem old_id_is_library_id_witness :
    entryRelink.old_id = "A" ∧ entryRelink.new_id = "B" := by
  have h := old_id_is_library_id lkW seW rtAB entryRelink rfl
  exact ⟨h.1, h.2.2 "A" rfl⟩

/-- C4: For a track classified `Unplayable`, a substitute candidate is
accepted iff it is playable and its title equals the original title
case-insensitively and exactly; the first such candidate in search order
populates `new_id`/`new_album`, and if none qualifies both stay empty. -/
theorem substitute_first_match (lookup : String → Option SourceTrack)
    (search : String → List Candidate) (rt : ResolvedTrack) (orig : SourceTrack)
    (hlk : lookup rt.id = some orig) (hnl : rt.linked_from = none)
    (hup : rt.is_playable = false) :
    findSubstitute orig.name (search (mkQuery orig.name orig.artist)) =
      (search (mkQuery orig.name orig.artist)).find? (acceptCandidate orig.name)
    ∧ (classifyTrack lookup search rt).1 =
        some (match (search (mkQuery orig.name orig.artist)).find?
                (acceptCandidate orig.name) with
          | some c =>
              { mkBase orig rt.id with
                reason := "Unplayable", new_id := c.id, new_album := c.album }
          | none => { mkBase orig rt.id with reason := "Unplayable" }) := by
  refine ⟨findSubstitute_eq_find _ _, ?_⟩
  simp only [classifyTrack, hnl, hlk, hup, Option.isSome_none, Bool.false_eq_true,
    if_false, Bool.not_false, if_true]
  rw [show (mkBase orig rt.id).title = orig.name from rfl,
    show (mkBase orig rt.id).artist = orig.artist from rfl,
    findSubstitute_eq_find]
  split <;> rfl

/-- C4 witness: among four candidates the first playable, case-insensitively
title-equal one (the third) is chosen; its id and album populate the record. -/
theorem substitute_first_match_witness :
    (classifyTrack lkW seW4 rtU).1 = some entryU
    ∧ entryU.new_id = "c3" ∧ entryU.new_album = "Alb3" := by
  have h := substitute_first_match lkW seW4 rtU origW rfl rfl rfl
  refine ⟨?_, rfl, rfl⟩
  rw [h.2]
  rfl

/-- An audit record with artist `ArtistX` and a found substitute. -/
def entryF1 : LogEntry := ⟨"ArtistX", "T1", "OA1", "old1", "NA1", "new1", "Unplayable"⟩

/-- An audit record with artist `Other` and a found substitute. -/
def entryF2 : LogEntry := ⟨"Other", "T2", "OA2", "old2", "NA2", "new2", "Unplayable"⟩

/-- An audit record with no substitute found (`new_id` empty). -/
def entryF3 : LogEntry := ⟨"ArtistX", "T3", "OA3", "old3", "", "", "Unplayable"⟩

/-- A three-record audit log for the reconciliation witnesses. -/
def logW : List LogEntry := [entryF1, entryF2, entryF3]

/-- Report metadata fixture. -/
def mW : ReportMeta := ⟨"2025-01-01 00:00:00", "user", "Liked Songs", true, "BE", none⟩

/-- C5: In a live run, reconciliation acts exactly on the audit records with
non-empty `new_id`; with a test-artist filter set it additionally acts only
on records whose artist equals the filter case-insensitively; records
excluded by the filter produce no remote call but still appear in the
report. -/
theorem reconcile_scope (isPlaylist : Bool) (ta : Option String) (fe : FailEnv)
    (log : List LogEntry) :
    (reconcile isPlaylist ta fe log).1 =
      ((log.filter (fun t => !(t.new_id == "") && !(skipByFilter ta t.artist))).map
        (fun r => (reconcileRecord isPlaylist fe r).1)).flatten
    ∧ (∀ f, f ≠ "" → ta = some f →
        log.filter (fun t => !(t.new_id == "") && !(skipByFilter ta t.artist)) =
          log.filter (fun t => !(t.new_id == "") && (lowerStr t.artist == lowerStr f)))
    ∧ (∀ t ∈ log, auditRow t ∈ (auditSheet log).rows) := by
  refine ⟨?_, ?_, ?_⟩
  · rw [reconcile, reconcileList_calls_eq, List.filter_filter]
    congr 1
    congr 1
    apply List.filter_congr
    intro t _
    rw [Bool.and_comm]
  · intro f hf hta
    subst hta
    apply List.filter_congr
    intro t _
    have hb : (f == "") = false := beq_eq_false_iff_ne.mpr hf
    simp [skipByFilter, hb]
  · intro t ht
    rw [auditSheet_rows]
    exact List.mem_cons_of_mem _ (List.mem_map_of_mem _ ht)

/-- C5 witness: with filter `artistx`, the processed set is exactly the
records with a substitute and a case-insensitively matching artist, and the
filtered-out record still has its report row. -/
theorem reconcile_scope_witness :
    (reconcile false (some "artistx") feOk logW).1 =
      ((logW.filter
          (fun t => !(t.new_id == "") && !(skipByFilter (some "artistx") t.artist))).map
        (fun r => (reconcileRecord false feOk r).1)).flatten
    ∧ logW.filter
        (fun t => !(t.new_id == "") && !(skipByFilter (some "artistx") t.artist)) =
        logW.filter
          (fun t => !(t.new_id == "") && (lowerStr t.artist == lowerStr "artistx"))
    ∧ auditRow entryF2 ∈ (auditSheet logW).rows := by
  have h := reconcile_scope false (some "artistx") feOk logW
  exact ⟨h.1, h.2.1 "artistx" (by decide) rfl, h.2.2 entryF2 (by decide)⟩

/-- C6: For every record the reconciler processes, the add of the substitute
is issued before the removal of the original: the record call list is
`[add]` or `[add, remove]`, and after the add (before any remove) the
collection still holds both the original and the substitute identifier. -/
theorem add_issued_before_remove (isPlaylist : Bool) (fe : FailEnv)
    (r : LogEntry) (st : List String) (h : r.old_id ∈ st) :
    ((reconcileRecord isPlaylist fe r).1 = [mkAdd isPlaylist r.new_id]
      ∨ (reconcileRecord isPlaylist fe r).1 =
          [mkAdd isPlaylist r.new_id, mkRemove isPlaylist r.old_id])
    ∧ r.new_id ∈ applyCall st (mkAdd isPlaylist r.new_id)
    ∧ r.old_id ∈ applyCall st (mkAdd isPlaylist r.new_id) := by
  refine ⟨?_, ?_, ?_⟩
  · rcases h1 : fe.addErr r.new_id with _ | e
    · rcases h2 : fe.removeErr r.old_id with _ | e2
      · right; simp [reconcileRecord, h1, h2]
      · right; simp [reconcileRecord, h1, h2]
    · left; simp [reconcileRecord, h1]
  · cases isPlaylist <;> simp [mkAdd, applyCall]
  · cases isPlaylist <;> simp [mkAdd, applyCall, h]

/-- C6 witness: for a concrete record whose original is in the collection,
the add comes first and the intermediate state holds both ids. -/
theorem add_issued_before_remove_witness :
    ((reconcileRecord false feOk entryF1).1 = [mkAdd false entryF1.new_id]
      ∨ (reconcileRecord false feOk entryF1).1 =
          [mkAdd false entryF1.new_id, mkRemove false entryF1.old_id])
    ∧ entryF1.new_id ∈ applyCall ["old1"] (mkAdd false entryF1.new_id)
    ∧ entryF1.old_id ∈ applyCall ["old1"] (mkAdd false entryF1.new_id) :=
  add_issued_before_remove false feOk entryF1 ["old1"] (by decide)

/-- C7: A failure during a record add/remove pair is caught and logged with
the offending identifier and the underlying error, processing continues with
every subsequent record, and no extra (rollback/retry) call is issued. -/
theorem record_failure_isolated (isPlaylist : Bool) (ta : Option String)
    (fe : FailEnv) (r : LogEntry) (rest : List LogEntry)
    (hskip : skipByFilter ta r.artist = false) :
    (reconcileList isPlaylist ta fe (r :: rest)).1 =
        (reconcileRecord isPlaylist fe r).1 ++ (reconcileList isPlaylist ta fe rest).1
    ∧ (reconcileList isPlaylist ta fe (r :: rest)).2 =
        (reconcileRecord isPlaylist fe r).2 ++ (reconcileList isPlaylist ta fe rest).2
    ∧ (∀ e, fe.addErr r.new_id = some e →
        (reconcileRecord isPlaylist fe r).2 = [errMsg r.old_id e])
    ∧ (∀ e, fe.addErr r.new_id = none → fe.removeErr r.old_id = some e →
        (reconcileRecord isPlaylist fe r).2 = [errMsg r.old_id e])
    ∧ (reconcileRecord isPlaylist fe r).1.length ≤ 2 := by
  refine ⟨by simp [reconcileList, hskip], by simp [reconcileList, hskip], ?_, ?_, ?_⟩
  · intro e he
    simp [reconcileRecord, he]
  · intro e he1 he2
    simp [reconcileRecord, he1, he2]
  · rcases h1 : fe.addErr r.new_id with _ | e
    · rcases h2 : fe.removeErr r.old_id with _ | e2 <;> simp [reconcileRecord, h1, h2]
    · simp [reconcileRecord, h1]

/-- C7 witness: with the first record add raising `"boom"`, the error is
logged with its `old_id` and the second record is still processed. -/
theorem record_failure_isolated_witness :
    (reconcileList false none feAddBoom [entryF1, entryF2]).1 =
        (reconcileRecord false feAddBoom entryF1).1 ++
          (reconcileList false none feAddBoom [entryF2]).1
    ∧ (reconcileRecord false feAddBoom entryF1).2 = [errMsg "old1" "boom"] := by
  have h := record_failure_isolated false none feAddBoom entryF1 [entryF2] rfl
  exact ⟨h.1, h.2.2.1 "boom" rfl⟩

/-- C8: No report is written for an empty audit list; otherwise exactly two
sheets are produced, the audit sheet single header row is
`Reason, Artist, Title, Old Album Name, Old Track Id, New Album Name,
New Track Id`, followed by one data row per audit record in encounter
order. -/
theorem report_two_sheets (m : ReportMeta) (log : List LogEntry) :
    (buildReport m log = none ↔ log = [])
    ∧ (log ≠ [] → buildReport m log = some [summarySheet m log, auditSheet log])
    ∧ (auditSheet log).rows =
        ["Reason", "Artist", "Title", "Old Album Name", "Old Track Id",
         "New Album Name", "New Track Id"] :: log.map auditRow := by
  refine ⟨?_, ?_, ?_⟩
  · constructor
    · intro h
      by_contra hne
      simp [buildReport, hne] at h
    · intro h
      simp [buildReport, h]
  · intro h
    simp [buildReport, buildWorkbook, h]
  · rw [auditSheet_rows]
    rfl

/-- C8 witness: a non-empty log produces the two concrete sheets. -/
theorem report_two_sheets_witness :
    buildReport mW logW = some [summarySheet mW logW, auditSheet logW] := by
  have h := report_two_sheets mW logW
  exact h.2.1 (by decide)

/-- C9: The paginated fetch terminates exactly on an empty page (returning no
records and issuing only that fetch), otherwise continues at
`offset + len(items)`; an empty first page yields zero audit records. -/
theorem pagination_offset_and_termination (env : Env) (cfg : Config) :
    (∀ offset, (env.allItems.drop offset).take cfg.pageLimit = [] →
        auditLoop env cfg cfg.pageLimit offset =
          ([], [RemoteCall.fetchPage cfg.isPlaylist offset cfg.pageLimit]))
    ∧ (∀ offset, (env.allItems.drop offset).take cfg.pageLimit ≠ [] →
        auditLoop env cfg cfg.pageLimit offset =
          ((pageStep env ((env.allItems.drop offset).take cfg.pageLimit)).1 ++
             (auditLoop env cfg cfg.pageLimit
               (offset + ((env.allItems.drop offset).take cfg.pageLimit).length)).1,
           RemoteCall.fetchPage cfg.isPlaylist offset cfg.pageLimit ::
             ((pageStep env ((env.allItems.drop offset).take cfg.pageLimit)).2 ++
              (auditLoop env cfg cfg.pageLimit
                (offset + ((env.allItems.drop offset).take cfg.pageLimit).length)).2)))
    ∧ (env.allItems = [] → (runAudit env cfg).1 = []) := by
  have hempty : ∀ offset, (env.allItems.drop offset).take cfg.pageLimit = [] →
      auditLoop env cfg cfg.pageLimit offset =
        ([], [RemoteCall.fetchPage cfg.isPlaylist offset cfg.pageLimit]) := by
    intro offset h
    rw [auditLoop, dif_pos h]
  refine ⟨hempty, ?_, ?_⟩
  · intro offset h
    conv_lhs => rw [auditLoop]
    rw [dif_neg h]
  · intro h
    unfold runAudit
    rw [hempty 0 (by simp [h])]

/-- C9 witness: the empty source first page is empty, so pagination stops
at once with zero audit records. -/
theorem pagination_offset_and_termination_witness :
    auditLoop envNil cfgDryLiked cfgDryLiked.pageLimit 0 =
      ([], [RemoteCall.fetchPage false 0 50])
    ∧ (runAudit envNil cfgDryLiked).1 = [] := by
  have h := pagination_offset_and_termination envNil cfgDryLiked
  exact ⟨h.1 0 rfl, h.2.2 rfl⟩

/-- C10: A non-empty page with no usable track reference (empty per-page id
map) contributes no audit record and no resolve call: the loop just advances
to `offset + len(items)` and issues the next page fetch there; it does not
terminate. -/
theorem unusable_page_continues (env : Env) (cfg : Config) (limit offset : Nat)
    (hne : (env.allItems.drop offset).take limit ≠ [])
    (hmap : buildMap ((env.allItems.drop offset).take limit) = []) :
    (auditLoop env cfg limit offset).1 =
        (auditLoop env cfg limit
          (offset + ((env.allItems.drop offset).take limit).length)).1
    ∧ (auditLoop env cfg limit offset).2 =
        RemoteCall.fetchPage cfg.isPlaylist offset limit ::
          (auditLoop env cfg limit
            (offset + ((env.allItems.drop offset).take limit).length)).2
    ∧ RemoteCall.fetchPage cfg.isPlaylist
        (offset + ((env.allItems.drop offset).take limit).length) limit
        ∈ (auditLoop env cfg limit offset).2 := by
  have hstep : pageStep env ((env.allItems.drop offset).take limit) = ([], []) := by
    simp [pageStep, hmap]
  have heq : auditLoop env cfg limit offset =
      ((auditLoop env cfg limit
          (offset + ((env.allItems.drop offset).take limit).length)).1,
       RemoteCall.fetchPage cfg.isPlaylist offset limit ::
         (auditLoop env cfg limit
           (offset + ((env.allItems.drop offset).take limit).length)).2) := by
    conv_lhs => rw [auditLoop]
    rw [dif_neg hne]
    simp [hstep]
  refine ⟨by rw [heq], by rw [heq], ?_⟩
  rw [heq]
  exact List.mem_cons_of_mem _ (auditLoop_fetch_mem env cfg limit _)

/-- C10 witness: a first page of two track-less items advances the offset to
2 and fetches there, producing no audit record. -/
theorem unusable_page_continues_witness :
    (auditLoop (Env.mk [none, none] (fun _ => []) (fun _ => [])) cfgDryLiked 50 0).1 =
        (auditLoop (Env.mk [none, none] (fun _ => []) (fun _ => [])) cfgDryLiked 50 2).1
    ∧ RemoteCall.fetchPage false 2 50
        ∈ (auditLoop (Env.mk [none, none] (fun _ => []) (fun _ => [])) cfgDryLiked 50 0).2 := by
  have h := unusable_page_continues (Env.mk [none, none] (fun _ => []) (fun _ => []))
    cfgDryLiked 50 0 (by decide) (by decide)
  exact ⟨h.1, h.2.2⟩

end SpotifyRelink
